import Mathlib

/-!
Shallow embedding of the panini render pipeline (`src/lib/render.js` and the
variant in `src/unnamed/part_000`, whose `render` function the specification
describes).  JavaScript data values are modelled by `JVal`, the Handlebars
engine by a small template type `Tmpl` together with an explicit registry of
named fragments, and machine strings by Lean `String`.  Fallible steps return
`Except`; the `try`/`catch`/`finally` of `render` is modelled by `renderCore`
(the `try` body) and `finishRender` (the `catch` plus `finally` behaviour).
-/

namespace Panini

/-- JavaScript-style data values carried by front matter, global data and the
render context (plain JSON-like objects). -/
inductive JVal where
  | str : String → JVal
  | num : Int → JVal
  | bool : Bool → JVal
  | null : JVal
  | obj : List (String × JVal) → JVal
  | arr : List JVal → JVal

/-- JavaScript truthiness of a value, as used by `a || b` chains in
`render` (`page.attributes.layout || ... || 'default'`). -/
def jtruthy : JVal → Bool
  | .str s => !s.isEmpty
  | .num n => n != 0
  | .bool b => b
  | .null => false
  | .obj _ => true
  | .arr _ => true

/-- First-match lookup in an association list of object fields. -/
def alook : List (String × JVal) → String → Option JVal
  | [], _ => none
  | (k, v) :: rest, key => if k = key then some v else alook rest key

mutual

/-- Modelled from the spec: the external `deepmerge` capability
(`extend` in `render.js`; the module itself is not part of the provided
sources).  Later values win; two plain objects are merged key by key
recursively; any non-object later value (scalars, arrays) replaces the
earlier one.  Recursion depth is bounded by an explicit fuel parameter;
at fuel `0` the later value wins outright, which preserves the
later-layer-wins semantics at every fuel. -/
def jmerge : Nat → JVal → JVal → JVal
  | Nat.succ f, .obj a, .obj b => .obj (jmergeFields f a b)
  | _, _, b => b

/-- Field-wise deep merge of two objects: keys of `a` keep their order and
are merged with (or replaced by) `b`'s value when `b` also has the key;
keys only in `b` are appended. -/
def jmergeFields (f : Nat) (a b : List (String × JVal)) : List (String × JVal) :=
  (a.map fun kv =>
    match alook b kv.1 with
    | some w => (kv.1, jmerge f kv.2 w)
    | none => kv) ++
  b.filter fun kv => (alook a kv.1).isNone

end

/-- Handlebars-style stringification of a context value interpolated by a
mustache (`Handlebars` renders `null`/`undefined` as the empty string). -/
def jvalToString : JVal → String
  | .str s => s
  | .num n => toString n
  | .bool true => "true"
  | .bool false => "false"
  | .null => ""
  | .obj _ => "[object Object]"
  | .arr l => String.intercalate "," (l.attach.map fun v => jvalToString v.1)
decreasing_by
  have := List.sizeOf_lt_of_mem v.2
  simp only [JVal.arr.sizeOf_spec]
  omega

/-- JavaScript property-key coercion, as used by `this.layouts[layout]`
when the resolved layout value is not already a string. -/
def jvalToKey : JVal → String
  | .str s => s
  | .num n => toString n
  | .bool true => "true"
  | .bool false => "false"
  | .null => "null"
  | .obj _ => "[object Object]"
  | .arr l => jvalToString (.arr l)

/-- Compiled Handlebars templates, modelled as a small abstract syntax:
literal text, a mustache interpolation, a reference to a registered
fragment (a Handlebars `\x7b\x7b> name\x7d\x7d` inclusion), sequencing, and a template
whose evaluation throws (undefined helpers etc.). -/
inductive Tmpl where
  | text : String → Tmpl
  | var : String → Tmpl
  | fragRef : String → Tmpl
  | seq : Tmpl → Tmpl → Tmpl
  | fail : String → Tmpl
deriving DecidableEq, Repr

/-- An entry of `Handlebars.partials`: either an already compiled template
or a raw template-source string (Handlebars compiles raw entries when they
are first used; `render`'s catch branch registers a raw string). -/
inductive FragEntry where
  | tmpl : Tmpl → FragEntry
  | raw : String → FragEntry
deriving DecidableEq, Repr

/-- First-match lookup in the fragment registry. -/
def lookupFrag : List (String × FragEntry) → String → Option FragEntry
  | [], _ => none
  | (k, v) :: rest, key => if k = key then some v else lookupFrag rest key

/-- The `Handlebars.registerPartial` operation: (re)binding a name overwrites any prior
binding for that name and leaves all others alone. -/
def setFrag (ps : List (String × FragEntry)) (n : String) (v : FragEntry) :
    List (String × FragEntry) :=
  (n, v) :: ps.filter fun kv => !(kv.1 == n)

/-- JS `s.indexOf(pre) === 0`: does `s` start with `pre`?  (Stated over the
character lists so that it evaluates structurally.) -/
def strStartsWith (s pre : String) : Bool :=
  pre.toList.isPrefixOf s.toList

/-- The purge in `render`: delete every registry entry whose name begins
with the reserved prefix `layout-` (the `inlineLayoutPartialList` loop,
`partial.indexOf('layout-') === 0`). -/
def purgeLayoutFrags (ps : List (String × FragEntry)) : List (String × FragEntry) :=
  ps.filter fun kv => !(strStartsWith kv.1 "layout-")

/-- Evaluation of a compiled template against a context and the fragment
registry.  Fragment inclusion of a missing name throws (as Handlebars
does); a `raw` registry entry is compiled on use with the supplied
compiler.  Recursion is bounded by fuel, which theorems quantify over. -/
def runTmpl (compile : String → Except String Tmpl) :
    Nat → Tmpl → JVal → List (String × FragEntry) → Except String String
  | 0, _, _, _ => .error "Panini model: template evaluation fuel exhausted"
  | Nat.succ _, .text s, _, _ => .ok s
  | Nat.succ _, .var k, ctx, _ =>
      .ok (jvalToString ((match ctx with | .obj fs => alook fs k | _ => none).getD .null))
  | Nat.succ _, .fail m, _, _ => .error m
  | Nat.succ f, .seq a b, ctx, ps =>
      match runTmpl compile f a ctx ps, runTmpl compile f b ctx ps with
      | .ok x, .ok y => .ok (x ++ y)
      | .error e, _ => .error e
      | _, .error e => .error e
  | Nat.succ f, .fragRef n, ctx, ps =>
      match lookupFrag ps n with
      | none => .error ("The partial " ++ n ++ " could not be found")
      | some (.tmpl t) => runTmpl compile f t ctx ps
      | some (.raw s) =>
          match compile s with
          | .error e => .error e
          | .ok t => runTmpl compile f t ctx ps

/-- JavaScript `\s` on the ASCII range, as used by the `[\s]` classes of the
inline-fragment regexes. -/
def isWsChar (c : Char) : Bool :=
  c = ' ' || c = '\t' || c = '\n' || c = '\x0d' || c = '\x0b' || c = '\x0c'

/-- The character class `[0-9a-zA-Z_-]` of the fragment-name group. -/
def isNameChar (c : Char) : Bool :=
  c.isAlphanum || c = '_' || c = '-'

/-- Consume an exact literal prefix, returning the remainder. -/
def expectLit : List Char → List Char → Option (List Char)
  | [], s => some s
  | _ :: _, [] => none
  | l :: ls, c :: cs => if c = l then expectLit ls cs else none

/-- Match the opening tag
`\x7b\x7b\~\x7b0,1\x7d#\*inline[\s]+(?<quote>[\"']\x7b1\x7d)(?<name>layout-[0-9a-zA-Z_-]*)\k<quote>\s*\x7d\x7d`
of the inline regex at the head of the input: optional `~`, the literal
`#*inline`, mandatory whitespace, a quote character, the name (forced
`layout-` prefix), the *same* quote character again, optional whitespace,
and the closing braces.  Returns the captured name and the remainder. -/
def matchOpen (s0 : List Char) : Option (String × List Char) :=
  match expectLit "\x7b\x7b".toList s0 with
  | none => none
  | some s1 =>
    let s2 := match s1 with
      | '~' :: r => r
      | _ => s1
    match expectLit "#*inline".toList s2 with
    | none => none
    | some s3 =>
      let s4 := s3.dropWhile isWsChar
      if s3.takeWhile isWsChar = [] then none
      else
        match s4 with
        | [] => none
        | q :: s5 =>
          if q = '"' || q = '\'' then
            match expectLit "layout-".toList s5 with
            | none => none
            | some s6 =>
              let nm := s6.takeWhile isNameChar
              match s6.dropWhile isNameChar with
              | [] => none
              | q2 :: s7 =>
                if q2 = q then
                  match expectLit "\x7d\x7d".toList (s7.dropWhile isWsChar) with
                  | none => none
                  | some s8 => some ("layout-" ++ nm.asString, s8)
                else none
          else none

/-- Match the closing tag `\x7b\x7b\/inline\s*\~\x7b0,1\x7d\x7d\x7d` at the head of the
input, returning the remainder. -/
def matchClose (s0 : List Char) : Option (List Char) :=
  match expectLit "\x7b\x7b/inline".toList s0 with
  | none => none
  | some s1 =>
    let s2 := match s1.dropWhile isWsChar with
      | '~' :: r => r
      | r => r
    expectLit "\x7d\x7d".toList s2

/-- The lazy body group `(?<body>[.\s\S]*?)` followed by the closing tag:
scan forward for the first position where the closing tag matches and
return the body characters together with the remainder after the tag. -/
def findClose : List Char → Option (List Char × List Char)
  | [] => none
  | c :: tail =>
    match matchClose (c :: tail) with
    | some rest => some ([], rest)
    | none =>
      match findClose tail with
      | some (b, rest) => some (c :: b, rest)
      | none => none

/-- One match of the inline-fragment regex: the captured `name` and `body`
groups and the full matched text `full` (`match[0]`, which includes the
trailing `[\s]*`). -/
structure MatchInfo where
  name : String
  body : String
  full : String
deriving DecidableEq, Repr

/-- Try the whole inline-fragment regex at the head of the input.  On
success, return the match and the remainder after the trailing
whitespace (the regex's `lastIndex` position). -/
def matchDeclAt (s : List Char) : Option (MatchInfo × List Char) :=
  match matchOpen s with
  | none => none
  | some (name, afterOpen) =>
    match findClose afterOpen with
    | none => none
    | some (bodyChars, afterClose) =>
      let rest := afterClose.dropWhile isWsChar
      some ({ name := name, body := bodyChars.asString,
              full := (s.take (s.length - rest.length)).asString }, rest)

/-- All matches of the (global) inline-fragment regex, found left to right
and continuing after each match, exactly as the `exec` loop visits them.
The fuel bounds the number of scan steps; every step consumes at least one
character, so fuel `s.length + 1` is exact. -/
def findAllAux : Nat → List Char → List MatchInfo
  | 0, _ => []
  | _ + 1, [] => []
  | f + 1, c :: tail =>
    match matchDeclAt (c :: tail) with
    | some (m, rest) => m :: findAllAux f rest
    | none => findAllAux f tail

/-- All inline-fragment matches of a string. -/
def findAllMatches (s : List Char) : List MatchInfo :=
  findAllAux (s.length + 1) s

/-- Lazy scan for the first position where the comment closer `--\x7d\x7d`
matches, returning the remainder after it. -/
def findCommentClose : List Char → Option (List Char)
  | [] => none
  | c :: tail =>
    match expectLit "--\x7d\x7d".toList (c :: tail) with
    | some r => some r
    | none => findCommentClose tail

/-- Try the comment regex `\x7b\x7b!--(?<comment>[.\s\S]*?)--\x7d\x7d` at the head of
the input, returning the remainder after the match. -/
def matchCommentAt (s : List Char) : Option (List Char) :=
  match expectLit "\x7b\x7b!--".toList s with
  | none => none
  | some s1 => findCommentClose s1

/-- Global replacement of every comment match by the empty string
(`page.body.replace(commentRegex, '')`), scanning left to right. -/
def stripCommentsAux : Nat → List Char → List Char
  | 0, s => s
  | _ + 1, [] => []
  | f + 1, c :: tail =>
    match matchCommentAt (c :: tail) with
    | some rest => stripCommentsAux f rest
    | none => c :: stripCommentsAux f tail

/-- Strip all template comments from a string. -/
def stripComments (s : List Char) : List Char :=
  stripCommentsAux (s.length + 1) s

/-- Substring test on character lists (`String.indexOf(needle) !== -1`). -/
def listContains : List Char → List Char → Bool
  | s, n =>
    if n.isPrefixOf s then true
    else
      match s with
      | [] => false
      | _ :: tail => listContains tail n

/-- JS `haystack.indexOf(needle) !== -1` on strings. -/
def strContains (haystack needle : String) : Bool :=
  listContains haystack.toList needle.toList

/-- JS `String.prototype.replace` with a plain-string pattern and an empty
replacement: delete the first occurrence of `needle`, if any. -/
def replaceFirstAux : List Char → List Char → List Char
  | s, [] => s
  | [], _ => []
  | c :: tail, n =>
    if n.isPrefixOf (c :: tail) then (c :: tail).drop n.length
    else c :: replaceFirstAux tail n

/-- Delete the first occurrence of `needle` from `haystack`
(`bodyText.replace(inlinePartialMatch[0], '')` with `replaceWith = ''`). -/
def replaceFirst (haystack needle : String) : String :=
  (replaceFirstAux haystack.toList needle.toList).asString

/-- The body of the `exec` loop, applied to the already-computed match
list: compile each match's body (plus a newline), register it under its
captured name, and delete the first occurrence of the full matched text
from the evolving body.  A compile failure aborts the loop, carrying the
registry state reached so far (the thrown exception is handled by the
orchestrator's catch). -/
def applyMatches (compile : String → Except String Tmpl) :
    List (String × FragEntry) → String → List MatchInfo →
    Except (String × List (String × FragEntry)) (String × List (String × FragEntry))
  | ps, bodyText, [] => .ok (bodyText, ps)
  | ps, bodyText, m :: ms =>
    match compile (m.body ++ "\n") with
    | .error e => .error (e, ps)
    | .ok t =>
        applyMatches compile (setFrag ps m.name (.tmpl t)) (replaceFirst bodyText m.full) ms

/-- The inline-fragment extraction step of `render`
(`src/unnamed/part_000`, lines 50–75): guarded by the fast-path substring
checks, the comment-stripped body is scanned for inline `layout-`
fragment declarations; each is compiled and registered, and its matched
text is removed (first textual occurrence) from the original body. -/
def extractInline (compile : String → Except String Tmpl)
    (ps : List (String × FragEntry)) (body : String) :
    Except (String × List (String × FragEntry)) (String × List (String × FragEntry)) :=
  if strContains body "\x7b\x7b#*inline" || strContains body "\x7b\x7b~#*inline" then
    applyMatches compile ps body (findAllMatches (stripComments body.toList))
  else
    .ok (body, ps)

/-- Split a character list at `/` separators (the helper behind the
Node-path models; structural so that it evaluates in the kernel). -/
def splitSlashAux : List Char → List Char → List String
  | [], acc => [acc.reverse.asString]
  | '/' :: rest, acc => acc.reverse.asString :: splitSlashAux rest []
  | c :: rest, acc => splitSlashAux rest (c :: acc)

/-- JS `p.split('/')`: all `/`-separated components, empty ones included. -/
def splitSlash (p : String) : List String :=
  splitSlashAux p.toList []

/-- Last `/`-separated component of a path (Node `path.basename` without
an extension argument, for simple POSIX paths). -/
def lastComponent (p : String) : String :=
  (splitSlash p).getLastD ""

/-- Node `path.extname`, for simple POSIX paths: the suffix of the last
component from its last dot, empty when there is no dot or when the dot
is the first character of the component. -/
def pathExtname (p : String) : String :=
  let b := (lastComponent p).toList
  let r := b.reverse
  if r.contains '.' then
    let pre := r.takeWhile (fun c => c ≠ '.')
    if pre.length + 1 = b.length then "" else ("." ++ pre.reverse.asString)
  else ""

/-- Node `path.basename(p, ext)`: the last component, with `ext` stripped
when it is a proper suffix of it. -/
def pathBasename (p ext : String) : String :=
  let b := lastComponent p
  if ext ≠ "" && ext ≠ b && ext.toList.isSuffixOf b.toList then
    (b.toList.take (b.length - ext.length)).asString
  else b

/-- All `/`-separated components of a path except the last (Node
`path.dirname`, for simple POSIX paths; `"."` when there is no slash). -/
def pathDirname (p : String) : String :=
  match (splitSlash p).dropLast with
  | [] => "."
  | cs => String.intercalate "/" cs

/-- Node `path.relative(from, to)` for already-normalized paths: strip the
common leading components, then one `..` per remaining `from` component
followed by the remaining `to` components. -/
def relComponents : List String → List String → List String
  | f :: fs, t :: ts =>
      if f = t then relComponents fs ts
      else (f :: fs).map (fun _ => "..") ++ t :: ts
  | [] , ts => ts
  | fs, [] => fs.map fun _ => ".."

/-- Node `path.relative` on strings (components `""` and `"."` are ignored, so
`"a/b"` and `"./a/b"` agree). -/
def pathRelative (f t : String) : String :=
  let fc := (splitSlash f).filter fun c => c ≠ "" && c ≠ "."
  let tc := (splitSlash t).filter fun c => c ≠ "" && c ≠ "."
  String.intercalate "/" (relComponents fc tc)

/-- Modelled from the spec: `processRoot` (`src/lib/processRoot.js` is not
among the provided sources).  Per §4.3 the `root` constant is the relative
path from the document's directory up to the site root: the empty string
for a document at the root, otherwise one `../` per directory level. -/
def processRoot (filePath root : String) : String :=
  let rel := pathRelative root (pathDirname filePath)
  let comps := (splitSlash rel).filter fun c => c ≠ "" && c ≠ "."
  String.join (comps.map fun _ => "../")

/-- The layout fallback of the `||` chain: a truthy folder-mapping value,
else the literal `"default"`. -/
def layoutFallback : Option JVal → JVal
  | some w => if jtruthy w then w else .str "default"
  | none => .str "default"

/-- Layout resolution (`render.js` lines 25–29):
`page.attributes.layout || (this.options.pageLayouts && this.options.pageLayouts[basePath]) || 'default'`.
JavaScript `||` selects the first *truthy* operand, and a missing
`pageLayouts` option or a missing folder key yields `undefined` (falsy). -/
def resolveLayout (attrs : List (String × JVal))
    (pageLayouts : Option (List (String × JVal))) (basePath : String) : JVal :=
  match alook attrs "layout" with
  | some v =>
      if jtruthy v then v
      else layoutFallback (pageLayouts.bind fun m => alook m basePath)
  | none => layoutFallback (pageLayouts.bind fun m => alook m basePath)

/-- The layered page-data composition of `render` (lines 75–90):
`extend(\x7b\x7d, this.data)`, then `extend(·, file.data)` when the document
carries upstream data, then `extend(·, page.attributes)`, and finally
`extend(·, \x7bpage, layout, root\x7d)`. -/
def composePageData (fuel : Nat) (globalData : List (String × JVal))
    (fileData : Option (List (String × JVal))) (attrs : List (String × JVal))
    (pageName : String) (layoutVal : JVal) (root : String) : List (String × JVal) :=
  let d0 := jmergeFields fuel [] globalData
  let d1 := match fileData with
    | some fd => jmergeFields fuel d0 fd
    | none => d0
  let d2 := jmergeFields fuel d1 attrs
  jmergeFields fuel d2
    [("page", .str pageName), ("layout", layoutVal), ("root", .str root)]

/-- A Vinyl file as `render` consumes it: source path, contents (already
decoded to text) and optional upstream per-document data. -/
structure VFile where
  path : String
  contents : String
  data : Option (List (String × JVal))

/-- The options `render` reads: the site root and the optional
folder-to-layout mapping. -/
structure POptions where
  root : String
  pageLayouts : Option (List (String × JVal))

/-- Error message for a missing `default` layout. -/
def msgMissingDefault : String :=
  "Panini error: you must have a layout named \"default\"."

/-- Error message for a missing named layout. -/
def msgMissingNamed (n : String) : String :=
  "Panini error: no layout named \"" ++ n ++ "\" exists."

/-- The raw Tier-2 fallback HTML document written when no layout template
was resolved before the failure. -/
def tier2Html (e : String) : String :=
  "<!DOCTYPE html><html><head><title>Panini error</title></head><body><pre>" ++
    e ++ "</pre></body></html>"

/-- The wrapper put on every re-raised error:
`new Error('Panini: rendering error occured.\n' + e)`. -/
def wrapErr (e : String) : String :=
  "Panini: rendering error occured.\n" ++ e

/-- The raw fragment registered as `body` by the Tier-1 fallback. -/
def errorBodyFrag : String :=
  "Panini: template could not be parsed <br> \n <pre>\x7b\x7berror\x7d\x7d</pre>"

/-- First-match lookup in the layout map `this.layouts`. -/
def lookupLayout : List (String × Tmpl) → String → Option Tmpl
  | [], _ => none
  | (k, v) :: rest, key => if k = key then some v else lookupLayout rest key

/-- Outcome of the `try` block of `render`: either the rendered output
together with the final registry, or the thrown error's message, the
registry state at the throw, and the value of the local variable
`layoutTemplate` at that moment (`none` when no layout had been resolved). -/
inductive RStep where
  | ok : String → List (String × FragEntry) → RStep
  | fail : String → List (String × FragEntry) → Option Tmpl → RStep
deriving DecidableEq, Repr

/-- The page data composed inside `render` for a given document. -/
def pageDataOf (fuel : Nat) (globalData : List (String × JVal)) (opts : POptions)
    (file : VFile) (attrs : List (String × JVal)) (layoutVal : JVal) :
    List (String × JVal) :=
  composePageData fuel globalData file.data attrs
    (pathBasename file.path (pathExtname file.path)) layoutVal
    (processRoot file.path opts.root)

/-- The `try` block of `render` (lines 19–95): front-matter split, layout
resolution and lookup, purge of transient `layout-` fragments, inline
extraction, page compilation, data composition, registration of the page
as the `body` fragment, and evaluation of the layout.  `fmp` is the
external `fm ∘ stripBom` capability and `compile` the external
`Handlebars.compile`.  (The `ifpage`/`unlesspage` helper registrations
mutate the separate helper registry, which no claim observes, and are not
modelled.) -/
def renderCore (fmp : String → Except String (List (String × JVal) × String))
    (compile : String → Except String Tmpl) (fuel : Nat)
    (layouts : List (String × Tmpl)) (globalData : List (String × JVal))
    (opts : POptions) (frags0 : List (String × FragEntry)) (file : VFile) : RStep :=
  match fmp file.contents with
  | .error e => .fail e frags0 none
  | .ok (attrs, body0) =>
    let basePath := pathRelative opts.root (pathDirname file.path)
    let layoutVal := resolveLayout attrs opts.pageLayouts basePath
    let layoutName := jvalToKey layoutVal
    match lookupLayout layouts layoutName with
    | none =>
        .fail (if layoutName = "default" then msgMissingDefault
               else msgMissingNamed layoutName) frags0 none
    | some layoutTemplate =>
      let frags1 := purgeLayoutFrags frags0
      match extractInline compile frags1 body0 with
      | .error (e, fragsE) => .fail e fragsE (some layoutTemplate)
      | .ok (body1, frags2) =>
        match compile (body1 ++ "\n") with
        | .error e => .fail e frags2 (some layoutTemplate)
        | .ok pageTemplate =>
          let pageData := JVal.obj (pageDataOf fuel globalData opts file attrs layoutVal)
          let frags3 := setFrag frags2 "body" (.tmpl pageTemplate)
          match runTmpl compile fuel layoutTemplate pageData frags3 with
          | .error e => .fail e frags3 (some layoutTemplate)
          | .ok out => .ok out frags3

/-- What `render` hands downstream: the document's content field, the
registry state, and the error propagated to the caller, if any.  The
`finally` block always passes the file on exactly once, which the model
reflects by `render` being a total function into this record. -/
structure RenderOut where
  contents : String
  frags : List (String × FragEntry)
  raised : Option String
deriving DecidableEq, Repr

/-- The `catch`/`finally` part of `render` (lines 96–113).  With a
resolved layout (Tier 1) the `body` fragment is re-registered as a raw
error fragment and the same layout is re-invoked on the minimal context
`\x7b error \x7d`; if that re-render itself throws, the catch block is
aborted: the contents keep their incoming value and the re-render's own
error — not the wrapped one — propagates past `finally`.  With no
resolved layout (Tier 2) the raw HTML error document is emitted. -/
def finishRender (compile : String → Except String Tmpl) (fuel : Nat)
    (file : VFile) : RStep → RenderOut
  | .ok out frags => ⟨out, frags, none⟩
  | .fail e frags none => ⟨tier2Html e, frags, some (wrapErr e)⟩
  | .fail e frags (some lt) =>
    let frags' := setFrag frags "body" (.raw errorBodyFrag)
    match runTmpl compile fuel lt (JVal.obj [("error", JVal.str e)]) frags' with
    | .ok s => ⟨s, frags', some (wrapErr e)⟩
    | .error e2 => ⟨file.contents, frags', some e2⟩

/-- The whole `render` stream handler for one document. -/
def render (fmp : String → Except String (List (String × JVal) × String))
    (compile : String → Except String Tmpl) (fuel : Nat)
    (layouts : List (String × Tmpl)) (globalData : List (String × JVal))
    (opts : POptions) (frags0 : List (String × FragEntry)) (file : VFile) : RenderOut :=
  finishRender compile fuel file
    (renderCore fmp compile fuel layouts globalData opts frags0 file)

/-- The registry carried by an extraction outcome, whether or not the
loop was aborted by a compile failure. -/
def fragsOfE :
    Except (String × List (String × FragEntry)) (String × List (String × FragEntry)) →
    List (String × FragEntry)
  | .ok (_, p) => p
  | .error (_, p) => p

/-- A model compiler for witnesses: every source compiles to a template
emitting it verbatim. -/
def textCompile : String → Except String Tmpl := fun s => .ok (.text s)

/-- A model front-matter splitter for witnesses: no attributes, the whole
contents as body. -/
def okFm : String → Except String (List (String × JVal) × String) :=
  fun s => .ok ([], s)

theorem lookupFrag_filter_ne (ps : List (String × FragEntry)) (n k : String)
    (h : k ≠ n) :
    lookupFrag (ps.filter fun kv => !(kv.1 == n)) k = lookupFrag ps k := by
  induction ps with
  | nil => rfl
  | cons hd tl ih =>
    obtain ⟨k1, v1⟩ := hd
    rw [List.filter_cons]
    by_cases h1 : k1 = n
    · subst h1
      have hne : ¬ (k1 = k) := fun hk => h hk.symm
      simp only [beq_self_eq_true, Bool.not_true, Bool.false_eq_true, if_false]
      rw [ih]
      conv_rhs => rw [lookupFrag]
      rw [if_neg hne]
    · have hb : (!(k1 == n)) = true := by simp [h1]
      rw [if_pos hb]
      rw [lookupFrag, lookupFrag]
      by_cases h2 : k1 = k
      · rw [if_pos h2, if_pos h2]
      · rw [if_neg h2, if_neg h2, ih]

theorem lookupFrag_setFrag (ps : List (String × FragEntry)) (n k : String)
    (v : FragEntry) :
    lookupFrag (setFrag ps n v) k = if n = k then some v else lookupFrag ps k := by
  by_cases h : n = k
  · rw [setFrag, lookupFrag, if_pos h, if_pos h]
  · have hk : k ≠ n := fun hk => h hk.symm
    rw [setFrag, lookupFrag, if_neg h, if_neg h, lookupFrag_filter_ne ps n k hk]

theorem lookupFrag_purge_none (ps : List (String × FragEntry)) (k : String)
    (h : strStartsWith k "layout-" = true) :
    lookupFrag (purgeLayoutFrags ps) k = none := by
  induction ps with
  | nil => rfl
  | cons hd tl ih =>
    obtain ⟨k1, v1⟩ := hd
    rw [purgeLayoutFrags] at ih ⊢
    rw [List.filter_cons]
    by_cases h1 : strStartsWith k1 "layout-" = true
    · simp only [h1, Bool.not_true, Bool.false_eq_true, if_false]
      exact ih
    · have h1' : strStartsWith k1 "layout-" = false := by
        revert h1; cases strStartsWith k1 "layout-" <;> simp
      have hb : (!(strStartsWith k1 "layout-")) = true := by rw [h1']; rfl
      rw [if_pos hb, lookupFrag]
      have hne : ¬ (k1 = k) := fun he => h1 (he ▸ h)
      rw [if_neg hne]
      exact ih

theorem applyMatches_agree (compile : String → Except String Tmpl)
    (ms : List MatchInfo) (k : String) :
    ∀ (ps qs : List (String × FragEntry)) (b : String),
      lookupFrag ps k = lookupFrag qs k →
      lookupFrag (fragsOfE (applyMatches compile ps b ms)) k =
        lookupFrag (fragsOfE (applyMatches compile qs b ms)) k := by
  induction ms with
  | nil => intro ps qs b h; simpa [applyMatches, fragsOfE] using h
  | cons m ms ih =>
    intro ps qs b h
    simp only [applyMatches]
    cases compile (m.body ++ "\n") with
    | error e => simpa [fragsOfE] using h
    | ok t =>
      apply ih
      rw [lookupFrag_setFrag, lookupFrag_setFrag]
      by_cases hn : m.name = k
      · simp [hn]
      · simp [hn, h]

theorem jmerge_str_right (f : Nat) (v : JVal) (s : String) :
    jmerge f v (.str s) = .str s := by
  cases f <;> cases v <;> simp [jmerge]

theorem alook_append_of_some (xs ys : List (String × JVal)) (k : String)
    (v : JVal) (h : alook xs k = some v) : alook (xs ++ ys) k = some v := by
  induction xs with
  | nil => exact absurd h (by simp [alook])
  | cons hd tl ih =>
    obtain ⟨k1, v1⟩ := hd
    rw [List.cons_append, alook]
    rw [alook] at h
    by_cases h1 : k1 = k
    · rw [if_pos h1] at h ⊢; exact h
    · rw [if_neg h1] at h ⊢; exact ih h

theorem alook_append_of_none (xs ys : List (String × JVal)) (k : String)
    (h : alook xs k = none) : alook (xs ++ ys) k = alook ys k := by
  induction xs with
  | nil => rfl
  | cons hd tl ih =>
    obtain ⟨k1, v1⟩ := hd
    rw [List.cons_append, alook]
    rw [alook] at h
    by_cases h1 : k1 = k
    · rw [if_pos h1] at h; exact absurd h (by simp)
    · rw [if_neg h1] at h ⊢; exact ih h

theorem alook_mergeMap_of_none (f : Nat) (a b : List (String × JVal)) (k : String)
    (h : alook a k = none) :
    alook (a.map fun kv =>
      match alook b kv.1 with
      | some w => (kv.1, jmerge f kv.2 w)
      | none => kv) k = none := by
  induction a with
  | nil => rfl
  | cons hd tl ih =>
    obtain ⟨k1, v1⟩ := hd
    rw [alook] at h
    by_cases h1 : k1 = k
    · rw [if_pos h1] at h; exact absurd h (by simp)
    · rw [if_neg h1] at h
      rw [List.map_cons]
      cases hb : alook b k1 <;>
        · simp only [hb]
          rw [alook, if_neg h1]
          exact ih h

theorem alook_mergeMap_of_some (f : Nat) (a b : List (String × JVal)) (k : String)
    (v w : JVal) (ha : alook a k = some v) (hb : alook b k = some w) :
    alook (a.map fun kv =>
      match alook b kv.1 with
      | some w => (kv.1, jmerge f kv.2 w)
      | none => kv) k = some (jmerge f v w) := by
  induction a with
  | nil => exact absurd ha (by simp [alook])
  | cons hd tl ih =>
    obtain ⟨k1, v1⟩ := hd
    rw [alook] at ha
    rw [List.map_cons]
    by_cases h1 : k1 = k
    · rw [if_pos h1] at ha
      subst h1
      rw [hb]
      simp only []
      rw [alook, if_pos rfl]
      rw [Option.some_inj] at ha
      rw [ha]
    · rw [if_neg h1] at ha
      cases hb1 : alook b k1 <;>
        · simp only [hb1]
          rw [alook, if_neg h1]
          exact ih ha

theorem alook_filter_isNone (a b : List (String × JVal)) (k : String)
    (h : alook a k = none) :
    alook (b.filter fun kv => (alook a kv.1).isNone) k = alook b k := by
  induction b with
  | nil => rfl
  | cons hd tl ih =>
    obtain ⟨k1, v1⟩ := hd
    rw [List.filter_cons]
    by_cases h1 : k1 = k
    · subst h1
      rw [if_pos (by rw [h]; rfl)]
      rw [alook, alook, if_pos rfl, if_pos rfl]
    · cases hk1 : (alook a k1).isNone with
      | true =>
        rw [if_pos rfl, alook, alook, if_neg h1, if_neg h1]
        exact ih
      | false =>
        rw [if_neg Bool.false_ne_true]
        rw [alook, if_neg h1]
        exact ih

/-- Key lookup in a field-wise deep merge when the later layer binds the
key to a value that absorbs merging (any non-object, e.g. a string):
the later layer's value wins whether or not the earlier layer binds it. -/
theorem alook_jmergeFields_right (f : Nat) (a b : List (String × JVal))
    (k : String) (w : JVal) (hb : alook b k = some w)
    (habs : ∀ v, jmerge f v w = w) :
    alook (jmergeFields f a b) k = some w := by
  rw [jmergeFields]
  cases ha : alook a k with
  | some v =>
    have := alook_mergeMap_of_some f a b k v w ha hb
    rw [habs v] at this
    exact alook_append_of_some _ _ _ _ this
  | none =>
    rw [alook_append_of_none _ _ _ (alook_mergeMap_of_none f a b k ha)]
    rw [alook_filter_isNone a b k ha]
    exact hb

/-- Claim C3: the composed render context is produced by deep-merging, in
this exact order, the empty mapping, the global data, the upstream
per-document data, the front-matter attributes, and finally the computed
constants; consequently the `page` key always equals the document's base
filename without extension, even when front matter supplies a conflicting
`page` key, because the constants are applied last and win. -/
theorem c3_page_constant_wins :
    (∀ (fuel : Nat) (g fd attrs : List (String × JVal)) (p : String) (lv : JVal) (r : String),
      composePageData fuel g (some fd) attrs p lv r =
        jmergeFields fuel
          (jmergeFields fuel (jmergeFields fuel (jmergeFields fuel [] g) fd) attrs)
          [("page", .str p), ("layout", lv), ("root", .str r)] ∧
      composePageData fuel g none attrs p lv r =
        jmergeFields fuel (jmergeFields fuel (jmergeFields fuel [] g) attrs)
          [("page", .str p), ("layout", lv), ("root", .str r)]) ∧
    (∀ (fuel : Nat) (g : List (String × JVal)) (fd : Option (List (String × JVal)))
        (attrs : List (String × JVal)) (p : String) (lv : JVal) (r : String),
      alook (composePageData fuel g fd attrs p lv r) "page" = some (.str p)) ∧
    (∀ (fuel : Nat) (g : List (String × JVal)) (opts : POptions) (file : VFile)
        (attrs : List (String × JVal)) (lv : JVal),
      alook (pageDataOf fuel g opts file attrs lv) "page" =
        some (.str (pathBasename file.path (pathExtname file.path)))) := by
  have key : ∀ (fuel : Nat) (g : List (String × JVal)) (fd : Option (List (String × JVal)))
      (attrs : List (String × JVal)) (p : String) (lv : JVal) (r : String),
      alook (composePageData fuel g fd attrs p lv r) "page" = some (.str p) := by
    intro fuel g fd attrs p lv r
    exact alook_jmergeFields_right fuel _ _ "page" (.str p) rfl
      (fun v => jmerge_str_right fuel v p)
  exact ⟨fun fuel g fd attrs p lv r => ⟨rfl, rfl⟩, key,
    fun fuel g opts file attrs lv => key fuel g file.data attrs _ lv _⟩

/-- Claim C7 is false as stated: an explicit front-matter `layout` key does
*not* always override the folder mapping — `render` selects layers by
JavaScript truthiness, so front matter `layout: ""` is ignored and the
folder mapping wins. -/
theorem c7_counterexample :
    resolveLayout [("layout", JVal.str "")] (some [("about", JVal.str "about")]) "about" =
      JVal.str "about" ∧
    JVal.str "about" ≠ JVal.str "" := by
  constructor
  · rfl
  · intro h
    injection h with h2
    exact absurd h2 (by decide)

/-- Claim C7 (amended): the resolved layout is determined by this
precedence on *truthy* values, highest first: a truthy front-matter
`layout` value; otherwise a truthy folder-mapping entry for the document's
base path; otherwise the literal `"default"` (a falsy explicit value falls
through to the next layer). -/
theorem c7_amended_layout_precedence :
    (∀ (attrs : List (String × JVal)) (pl : Option (List (String × JVal)))
        (bp : String) (v : JVal), alook attrs "layout" = some v → jtruthy v = true →
      resolveLayout attrs pl bp = v) ∧
    (∀ (attrs m : List (String × JVal)) (bp : String) (w : JVal),
        alook attrs "layout" = none → alook m bp = some w → jtruthy w = true →
      resolveLayout attrs (some m) bp = w) ∧
    (∀ (attrs : List (String × JVal)) (bp : String), alook attrs "layout" = none →
      resolveLayout attrs none bp = .str "default") ∧
    (∀ (attrs m : List (String × JVal)) (bp : String), alook attrs "layout" = none →
        alook m bp = none →
      resolveLayout attrs (some m) bp = .str "default") := by
  refine ⟨?_, ?_, ?_, ?_⟩
  · intro attrs pl bp v h ht
    simp [resolveLayout, h, ht]
  · intro attrs m bp w h hm ht
    simp [resolveLayout, layoutFallback, h, hm, ht]
  · intro attrs bp h
    simp [resolveLayout, layoutFallback, h]
  · intro attrs m bp h hm
    simp [resolveLayout, layoutFallback, h, hm]

theorem c7_amended_witness :
    resolveLayout [("layout", JVal.str "custom")] (some [("about", JVal.str "about")])
        "about" = JVal.str "custom" ∧
    resolveLayout [] (some [("about", JVal.str "about")]) "about" = JVal.str "about" ∧
    resolveLayout [] none "about" = JVal.str "default" ∧
    resolveLayout [] (some []) "about" = JVal.str "default" :=
  ⟨c7_amended_layout_precedence.1 _ _ _ _ rfl rfl,
   c7_amended_layout_precedence.2.1 _ _ _ _ rfl rfl rfl,
   c7_amended_layout_precedence.2.2.1 _ _ rfl,
   c7_amended_layout_precedence.2.2.2 _ _ _ rfl rfl⟩

/-- Claim C9: layout resolution selects a layer by the truthiness of its
value, not by key presence — a falsy front-matter `layout` value (empty
string, `false`, `null`, `0`) is ignored and resolution falls through to
the folder mapping or `"default"`, and a falsy folder-mapping entry falls
through to `"default"`. -/
theorem c9_truthiness_selects_layer :
    (∀ (attrs : List (String × JVal)) (pl : Option (List (String × JVal)))
        (bp : String) (v : JVal), alook attrs "layout" = some v → jtruthy v = false →
      resolveLayout attrs pl bp = layoutFallback (pl.bind fun m => alook m bp)) ∧
    (∀ w : JVal, jtruthy w = false → layoutFallback (some w) = .str "default") ∧
    (jtruthy (.str "") = false ∧ jtruthy (.bool false) = false ∧
      jtruthy .null = false ∧ jtruthy (.num 0) = false) := by
  refine ⟨?_, ?_, by decide, by decide, by decide, by decide⟩
  · intro attrs pl bp v h ht
    simp [resolveLayout, h, ht]
  · intro w ht
    simp [layoutFallback, ht]

theorem c9_witness :
    resolveLayout [("layout", JVal.str "")] (some [("about", JVal.str "about")])
        "about" =
      layoutFallback ((some [("about", JVal.str "about")]).bind fun m =>
        alook m "about") ∧
    layoutFallback (some (JVal.num 0)) = JVal.str "default" :=
  ⟨c9_truthiness_selects_layer.1 _ _ _ _ rfl rfl,
   c9_truthiness_selects_layer.2.1 _ rfl⟩

/-- Claim C8: when the body contains neither `\x7b\x7b#*inline` nor
`\x7b\x7b~#*inline`, the inline-fragment extractor is a no-op — the body is
returned unchanged and the registry is untouched (the scan behind the
fast-path guard is never entered). -/
theorem c8_extract_fast_path_noop (compile : String → Except String Tmpl)
    (ps : List (String × FragEntry)) (body : String)
    (h1 : strContains body "\x7b\x7b#*inline" = false)
    (h2 : strContains body "\x7b\x7b~#*inline" = false) :
    extractInline compile ps body = .ok (body, ps) := by
  rw [extractInline, h1, h2]
  rfl

theorem c8_witness :
    extractInline textCompile [("keep", .raw "k")] "hello \x7b\x7b> thing\x7d\x7d" =
      .ok ("hello \x7b\x7b> thing\x7d\x7d", [("keep", .raw "k")]) :=
  c8_extract_fast_path_noop textCompile _ _ (by decide) (by decide)

/-- Claim C2: `layout-`-prefixed registry entries are transient — `render`
purges them all before the inline extraction runs, so the `layout-`
entries visible afterwards (and hence while the layout is rendered; the
later `body` registration does not touch them) depend only on the current
document's own inline declarations, never on what a previous document
left in the registry. -/
theorem c2_transient_layout_frags (compile : String → Except String Tmpl)
    (P Q : List (String × FragEntry)) (body k : String)
    (hk : strStartsWith k "layout-" = true) :
    lookupFrag (purgeLayoutFrags P) k = none ∧
    lookupFrag (fragsOfE (extractInline compile (purgeLayoutFrags P) body)) k =
      lookupFrag (fragsOfE (extractInline compile (purgeLayoutFrags Q) body)) k ∧
    (∀ (ps : List (String × FragEntry)) (t : FragEntry),
      lookupFrag (setFrag ps "body" t) k = lookupFrag ps k) := by
  refine ⟨lookupFrag_purge_none P k hk, ?_, ?_⟩
  · rw [extractInline, extractInline]
    by_cases hg : (strContains body "\x7b\x7b#*inline" ||
        strContains body "\x7b\x7b~#*inline") = true
    · rw [if_pos hg, if_pos hg]
      exact applyMatches_agree compile _ k _ _ body
        (by rw [lookupFrag_purge_none P k hk, lookupFrag_purge_none Q k hk])
    · rw [if_neg hg, if_neg hg]
      show lookupFrag (purgeLayoutFrags P) k = lookupFrag (purgeLayoutFrags Q) k
      rw [lookupFrag_purge_none P k hk, lookupFrag_purge_none Q k hk]
  · intro ps t
    rw [lookupFrag_setFrag]
    have hne : ¬ ("body" = k) := by
      intro he
      rw [← he] at hk
      exact absurd hk (by decide)
    rw [if_neg hne]

theorem c2_witness :
    lookupFrag (purgeLayoutFrags [("layout-x", .raw "stale"), ("site", .raw "s")])
        "layout-x" = none ∧
    lookupFrag (fragsOfE (extractInline textCompile
        (purgeLayoutFrags [("layout-x", .raw "stale"), ("site", .raw "s")]) "plain body"))
        "layout-x" =
      lookupFrag (fragsOfE (extractInline textCompile
        (purgeLayoutFrags []) "plain body")) "layout-x" ∧
    (∀ (ps : List (String × FragEntry)) (t : FragEntry),
      lookupFrag (setFrag ps "body" t) "layout-x" = lookupFrag ps "layout-x") :=
  c2_transient_layout_frags textCompile _ [] "plain body" "layout-x" (by decide)

theorem takeWhile_append_of_all (p : Char → Bool) (nm : List Char) (c : Char)
    (rest : List Char) (h : nm.all p = true) (hc : p c = false) :
    (nm ++ c :: rest).takeWhile p = nm := by
  induction nm with
  | nil => simp [List.takeWhile, hc]
  | cons a as ih =>
    simp only [List.all_cons, Bool.and_eq_true] at h
    simp [List.takeWhile, h.1, ih h.2]

theorem dropWhile_append_of_all (p : Char → Bool) (nm : List Char) (c : Char)
    (rest : List Char) (h : nm.all p = true) (hc : p c = false) :
    (nm ++ c :: rest).dropWhile p = c :: rest := by
  induction nm with
  | nil => simp [List.dropWhile, hc]
  | cons a as ih =>
    simp only [List.all_cons, Bool.and_eq_true] at h
    simp [List.dropWhile, h.1, ih h.2]

/-- The text of an inline opening tag, parametric in both quote
characters, the fragment-name tail and the text following the closing
quote: `\x7b\x7b#*inline q1layout-<nm>q2<rest>`. -/
def c4OpenTag (q1 : Char) (nm : List Char) (q2 : Char) (rest : List Char) :
    List Char :=
  '\x7b' :: '\x7b' :: '#' :: '*' :: 'i' :: 'n' :: 'l' :: 'i' :: 'n' :: 'e' ::
    ' ' :: q1 :: 'l' :: 'a' :: 'y' :: 'o' :: 'u' :: 't' :: '-' ::
    (nm ++ q2 :: rest)

theorem matchOpen_same_quote (q : Char) (nm rest : List Char)
    (hq : q = '"' ∨ q = '\'') (hnm : nm.all isNameChar = true) :
    matchOpen (c4OpenTag q nm q ('\x7d' :: '\x7d' :: rest)) =
      some ("layout-" ++ nm.asString, rest) := by
  have hqn : isNameChar q = false := by
    rcases hq with h | h <;> rw [h] <;> decide
  have ht := takeWhile_append_of_all isNameChar nm q ('\x7d' :: '\x7d' :: rest) hnm hqn
  have hd := dropWhile_append_of_all isNameChar nm q ('\x7d' :: '\x7d' :: rest) hnm hqn
  rcases hq with h | h <;> subst h
  · show (match (nm ++ '"' :: '\x7d' :: '\x7d' :: rest).dropWhile isNameChar with
      | [] => none
      | q2 :: s7 =>
        if q2 = '"' then
          match expectLit "\x7d\x7d".toList (s7.dropWhile isWsChar) with
          | none => none
          | some s8 =>
              some ("layout-" ++
                ((nm ++ '"' :: '\x7d' :: '\x7d' :: rest).takeWhile isNameChar).asString, s8)
        else none) = some ("layout-" ++ nm.asString, rest)
    rw [ht, hd]
    rfl
  · show (match (nm ++ '\'' :: '\x7d' :: '\x7d' :: rest).dropWhile isNameChar with
      | [] => none
      | q2 :: s7 =>
        if q2 = '\'' then
          match expectLit "\x7d\x7d".toList (s7.dropWhile isWsChar) with
          | none => none
          | some s8 =>
              some ("layout-" ++
                ((nm ++ '\'' :: '\x7d' :: '\x7d' :: rest).takeWhile isNameChar).asString, s8)
        else none) = some ("layout-" ++ nm.asString, rest)
    rw [ht, hd]
    rfl

theorem matchOpen_mismatched_quote (q1 q2 : Char) (nm rest : List Char)
    (hq1 : q1 = '"' ∨ q1 = '\'') (hq2 : q2 = '"' ∨ q2 = '\'') (hne : q1 ≠ q2)
    (hnm : nm.all isNameChar = true) :
    matchOpen (c4OpenTag q1 nm q2 rest) = none := by
  have hqn : isNameChar q2 = false := by
    rcases hq2 with h | h <;> rw [h] <;> decide
  have hd := dropWhile_append_of_all isNameChar nm q2 rest hnm hqn
  rcases hq1 with h1 | h1 <;> rcases hq2 with h2 | h2 <;> subst h1 <;> subst h2
  · exact absurd rfl hne
  · show (match (nm ++ '\'' :: rest).dropWhile isNameChar with
      | [] => none
      | q2 :: s7 =>
        if q2 = '"' then
          match expectLit "\x7d\x7d".toList (s7.dropWhile isWsChar) with
          | none => none
          | some s8 =>
              some ("layout-" ++
                ((nm ++ '\'' :: rest).takeWhile isNameChar).asString, s8)
        else none) = none
    rw [hd]
    simp
  · show (match (nm ++ '"' :: rest).dropWhile isNameChar with
      | [] => none
      | q2 :: s7 =>
        if q2 = '\'' then
          match expectLit "\x7d\x7d".toList (s7.dropWhile isWsChar) with
          | none => none
          | some s8 =>
              some ("layout-" ++
                ((nm ++ '"' :: rest).takeWhile isNameChar).asString, s8)
        else none) = none
    rw [hd]
    simp
  · exact absurd rfl hne

/-- A double-quoted inline declaration followed by residual text. -/
def c4BodyDq : String :=
  "\x7b\x7b#*inline \"layout-nav\"\x7d\x7dHi\x7b\x7b/inline\x7d\x7d rest"

/-- The same declaration with single quotes around the name. -/
def c4BodySq : String :=
  "\x7b\x7b#*inline 'layout-nav'\x7d\x7dHi\x7b\x7b/inline\x7d\x7d rest"

/-- The same declaration with `~` trim markers on both tags. -/
def c4BodyTilde : String :=
  "\x7b\x7b~#*inline 'layout-nav'\x7d\x7dHi\x7b\x7b/inline ~\x7d\x7d rest"

/-- A declaration whose name is opened with `"` but closed with `'`. -/
def c4BodyMismatch : String :=
  "\x7b\x7b#*inline \"layout-nav'\x7d\x7dHi\x7b\x7b/inline\x7d\x7d"

/-- Claim C4: the extractor pairs the *same* quote character around the
name — for every fragment name, an opening tag whose name is closed by
the same quote character (either `"` or `'`) matches, and one closed by
the other quote character never matches — it accepts the optional `~`
trim markers on both tags, and a body whose declaration has mismatched
quotes is returned untouched with nothing registered (even though the
fast-path guard fires on it). -/
theorem c4_quote_pairing :
    (∀ (q : Char) (nm rest : List Char), (q = '"' ∨ q = '\'') →
      nm.all isNameChar = true →
      matchOpen (c4OpenTag q nm q ('\x7d' :: '\x7d' :: rest)) =
        some ("layout-" ++ nm.asString, rest)) ∧
    (∀ (q1 q2 : Char) (nm rest : List Char), (q1 = '"' ∨ q1 = '\'') →
      (q2 = '"' ∨ q2 = '\'') → q1 ≠ q2 → nm.all isNameChar = true →
      matchOpen (c4OpenTag q1 nm q2 rest) = none) ∧
    extractInline textCompile [] c4BodyDq =
      .ok ("rest", [("layout-nav", .tmpl (.text "Hi\n"))]) ∧
    extractInline textCompile [] c4BodySq =
      .ok ("rest", [("layout-nav", .tmpl (.text "Hi\n"))]) ∧
    extractInline textCompile [] c4BodyTilde =
      .ok ("rest", [("layout-nav", .tmpl (.text "Hi\n"))]) ∧
    extractInline textCompile [] c4BodyMismatch = .ok (c4BodyMismatch, []) ∧
    strContains c4BodyMismatch "\x7b\x7b#*inline" = true :=
  ⟨fun q nm rest hq hnm => matchOpen_same_quote q nm rest hq hnm,
   fun q1 q2 nm rest h1 h2 hne hnm =>
     matchOpen_mismatched_quote q1 q2 nm rest h1 h2 hne hnm,
   rfl, rfl, rfl, rfl, rfl⟩

theorem c4_witness :
    matchOpen (c4OpenTag '"' ['n', 'a', 'v'] '"' ('\x7d' :: '\x7d' :: [])) =
      some ("layout-nav", []) ∧
    matchOpen (c4OpenTag '"' ['n', 'a', 'v'] '\'' []) = none :=
  ⟨c4_quote_pairing.1 '"' ['n', 'a', 'v'] [] (Or.inl rfl) (by decide),
   c4_quote_pairing.2.1 '"' '\'' ['n', 'a', 'v'] [] (Or.inl rfl) (Or.inr rfl)
     (by decide) (by decide)⟩

/-- Two same-named declarations with distinct bodies. -/
def c10Body : String :=
  "\x7b\x7b#*inline \"layout-a\"\x7d\x7dONE\x7b\x7b/inline\x7d\x7dMID" ++
  "\x7b\x7b#*inline \"layout-a\"\x7d\x7dTWO\x7b\x7b/inline\x7d\x7dEND"

/-- The last (rightmost) match in a match list carrying a given name, as
the `exec` loop's successive `registerPartial` calls leave it. -/
def lastNamed : List MatchInfo → String → Option MatchInfo
  | [], _ => none
  | m :: ms, n =>
    match lastNamed ms n with
    | some m2 => some m2
    | none => if m.name = n then some m else none

theorem applyMatches_lookup_of_none (compile : String → Except String Tmpl)
    (ms : List MatchInfo) (n : String) :
    ∀ (ps ps' : List (String × FragEntry)) (b b' : String),
      lastNamed ms n = none → applyMatches compile ps b ms = .ok (b', ps') →
      lookupFrag ps' n = lookupFrag ps n := by
  induction ms with
  | nil =>
    intro ps ps' b b' _ happ
    rw [applyMatches] at happ
    injection happ with h
    rw [(Prod.mk.injEq _ _ _ _).mp h |>.2]
  | cons m ms ih =>
    intro ps ps' b b' hln happ
    rw [applyMatches] at happ
    cases hc : compile (m.body ++ "\n") with
    | error e => rw [hc] at happ; exact absurd happ (by simp)
    | ok t =>
      rw [hc] at happ
      rw [lastNamed] at hln
      cases hln2 : lastNamed ms n with
      | some m2 => rw [hln2] at hln; exact absurd hln (by simp)
      | none =>
        rw [hln2] at hln
        have hmn : ¬ (m.name = n) := by
          intro he
          rw [if_pos he] at hln
          exact absurd hln (by simp)
        rw [ih _ _ _ _ hln2 happ, lookupFrag_setFrag, if_neg hmn]

theorem applyMatches_lastNamed (compile : String → Except String Tmpl)
    (ms : List MatchInfo) (n : String) :
    ∀ (ps ps' : List (String × FragEntry)) (b b' : String) (m : MatchInfo),
      applyMatches compile ps b ms = .ok (b', ps') → lastNamed ms n = some m →
      ∃ t, compile (m.body ++ "\n") = .ok t ∧
        lookupFrag ps' n = some (.tmpl t) := by
  induction ms with
  | nil =>
    intro ps ps' b b' m _ hln
    exact absurd hln (by rw [lastNamed]; simp)
  | cons m0 ms ih =>
    intro ps ps' b b' m happ hln
    rw [applyMatches] at happ
    cases hc : compile (m0.body ++ "\n") with
    | error e => rw [hc] at happ; exact absurd happ (by simp)
    | ok t0 =>
      rw [hc] at happ
      rw [lastNamed] at hln
      cases hln2 : lastNamed ms n with
      | some m2 =>
        rw [hln2] at hln
        injection hln with hm
        exact hm ▸ ih _ _ _ _ m2 happ hln2
      | none =>
        rw [hln2] at hln
        by_cases hmn : m0.name = n
        · rw [if_pos hmn] at hln
          injection hln with hm
          refine ⟨t0, hm ▸ hc, ?_⟩
          rw [applyMatches_lookup_of_none compile ms n _ _ _ _ hln2 happ,
            lookupFrag_setFrag, if_pos hmn]
        · rw [if_neg hmn] at hln
          exact absurd hln (by simp)

/-- The matched text of the first declaration of `c10CeBody`. -/
def c10D1 : String :=
  "\x7b\x7b#*inline \"layout-a\"\x7d\x7dX\x7b\x7b/inline\x7d\x7d"

/-- The matched text of the second declaration of `c10CeBody`. -/
def c10D2 : String :=
  "\x7b\x7b#*inline \"layout-a\"\x7d\x7dY\x7b\x7b/inline\x7d\x7d"

/-- Two same-named declarations preceded by an identical copy of the
first one inside a template comment. -/
def c10CeBody : String :=
  "\x7b\x7b!--" ++ c10D1 ++ "--\x7d\x7d" ++ c10D1 ++ "MID" ++ c10D2 ++ "END"

/-- What extraction returns for `c10CeBody`: the comment's copy was
deleted while the first matched span is still present. -/
def c10CeAfter : String :=
  "\x7b\x7b!----\x7d\x7d" ++ c10D1 ++ "MIDEND"

/-- Claim C10 is false as stated: `c10CeBody` contains two matched
same-named declarations (both are found and registered, and the
rightmost body wins in the registry), yet the first matched declaration
span is *not* removed from the body — the removal deletes the first
textual occurrence of the matched text, which here is the identical copy
inside the earlier comment, and the matched span itself survives. -/
theorem c10_counterexample :
    findAllMatches (stripComments c10CeBody.toList) =
      [⟨"layout-a", "X", c10D1⟩, ⟨"layout-a", "Y", c10D2⟩] ∧
    extractInline textCompile [] c10CeBody =
      .ok (c10CeAfter, [("layout-a", .tmpl (.text "Y\n"))]) ∧
    strContains c10CeAfter c10D1 = true :=
  ⟨rfl, rfl, rfl⟩

/-- Claim C10 (amended): with two or more same-named inline declarations
in one body, every match is registered in turn and the registry entry
that remains is the compiled body of the last (rightmost) declaration,
because each registration overwrites the previous one — proven for every
match list the `exec` loop processes.  Each match's removal deletes the
*first textual occurrence* of its matched text from the body: the
matched span itself unless an identical text occurs earlier (e.g. inside
a comment), in which case that earlier copy is deleted and the matched
span remains. -/
theorem c10_amended_duplicates :
    (∀ (compile : String → Except String Tmpl) (ms : List MatchInfo)
        (n : String) (ps ps' : List (String × FragEntry)) (b b' : String)
        (m : MatchInfo),
      applyMatches compile ps b ms = .ok (b', ps') → lastNamed ms n = some m →
      ∃ t, compile (m.body ++ "\n") = .ok t ∧
        lookupFrag ps' n = some (.tmpl t)) ∧
    (∀ (ps : List (String × FragEntry)) (n : String) (a b : FragEntry),
      lookupFrag (setFrag (setFrag ps n a) n b) n = some b) ∧
    findAllMatches (stripComments c10Body.toList) =
      [⟨"layout-a", "ONE", "\x7b\x7b#*inline \"layout-a\"\x7d\x7dONE\x7b\x7b/inline\x7d\x7d"⟩,
       ⟨"layout-a", "TWO", "\x7b\x7b#*inline \"layout-a\"\x7d\x7dTWO\x7b\x7b/inline\x7d\x7d"⟩] ∧
    extractInline textCompile [] c10Body =
      .ok ("MIDEND", [("layout-a", .tmpl (.text "TWO\n"))]) ∧
    extractInline textCompile [] c10CeBody =
      .ok (c10CeAfter, [("layout-a", .tmpl (.text "Y\n"))]) := by
  refine ⟨?_, ?_, rfl, rfl, rfl⟩
  · intro compile ms n ps ps' b b' m happ hln
    exact applyMatches_lastNamed compile ms n ps ps' b b' m happ hln
  · intro ps n a b
    rw [lookupFrag_setFrag, if_pos rfl]

theorem c10_amended_witness :
    ∃ t, textCompile ("TWO" ++ "\n") = .ok t ∧
      lookupFrag [("layout-a", FragEntry.tmpl (.text "TWO\n"))] "layout-a" =
        some (.tmpl t) :=
  c10_amended_duplicates.1 textCompile
    [⟨"layout-a", "ONE", "\x7b\x7b#*inline \"layout-a\"\x7d\x7dONE\x7b\x7b/inline\x7d\x7d"⟩,
     ⟨"layout-a", "TWO", "\x7b\x7b#*inline \"layout-a\"\x7d\x7dTWO\x7b\x7b/inline\x7d\x7d"⟩]
    "layout-a" [] [("layout-a", FragEntry.tmpl (.text "TWO\n"))] c10Body "MIDEND"
    ⟨"layout-a", "TWO", "\x7b\x7b#*inline \"layout-a\"\x7d\x7dTWO\x7b\x7b/inline\x7d\x7d"⟩
    rfl rfl

/-- A declaration inside a comment, followed by an identical declaration
outside any comment. -/
def c5Body : String :=
  "\x7b\x7b!--\x7b\x7b#*inline \"layout-a\"\x7d\x7dX\x7b\x7b/inline\x7d\x7d--\x7d\x7d" ++
  "\x7b\x7b#*inline \"layout-a\"\x7d\x7dX\x7b\x7b/inline\x7d\x7d"

/-- What extraction actually returns for `c5Body`: the copy *inside* the
comment was deleted and the declaration outside the comment survives. -/
def c5After : String :=
  "\x7b\x7b!----\x7d\x7d\x7b\x7b#*inline \"layout-a\"\x7d\x7dX\x7b\x7b/inline\x7d\x7d"

/-- Claim C5 is false as stated: on `c5Body` the declaration outside the
comment is registered but *not* removed from the body, and the
commented-out copy *is* stripped — because removal deletes the first
textual occurrence of the matched text, which here lies inside the
comment. -/
theorem c5_counterexample :
    extractInline textCompile [] c5Body =
      .ok (c5After, [("layout-a", .tmpl (.text "X\n"))]) ∧
    strContains c5After "\x7b\x7b#*inline \"layout-a\"" = true ∧
    strContains c5After "\x7b\x7b!--\x7b\x7b#*inline" = false :=
  ⟨rfl, rfl, rfl⟩

/-- A declaration lying entirely inside a template comment. -/
def c5OnlyComment : String :=
  "A\x7b\x7b!--\x7b\x7b#*inline \"layout-b\"\x7d\x7dX\x7b\x7b/inline\x7d\x7d--\x7d\x7dB"

/-- A declaration outside any comment, with no identical earlier text. -/
def c5PlainDecl : String :=
  "A\x7b\x7b#*inline \"layout-c\"\x7d\x7dY\x7b\x7b/inline\x7d\x7dB"

/-- Claim C5 (amended): comment regions are excluded from the scan, so a
declaration inside a comment is never compiled or registered and a lone
commented declaration is left in the body; a declaration outside comments
is registered, and its removal deletes the *first textual occurrence* of
the matched text from the original body — the declaration itself unless
an identical text occurs earlier (e.g. inside a comment), in which case
that earlier copy is deleted and the matched declaration remains. -/
theorem c5_amended_comment_exclusion :
    extractInline textCompile [] c5OnlyComment = .ok (c5OnlyComment, []) ∧
    extractInline textCompile [] c5PlainDecl =
      .ok ("AB", [("layout-c", .tmpl (.text "Y\n"))]) ∧
    extractInline textCompile [] c5Body =
      .ok (c5After, [("layout-a", .tmpl (.text "X\n"))]) :=
  ⟨rfl, rfl, rfl⟩

/-- A layout that references a fragment named `nav` after a fixed header. -/
def c1Layout : Tmpl := .seq (.text "<header>H</header>") (.fragRef "nav")

/-- Claim C1 is false as stated: here the layout *was* resolved before the
failure (the primary render threw because the layout references the
missing fragment `nav`), yet the output is not the layout re-rendered
with an error `body` — the Tier-1 re-render throws the same way, the
catch block is aborted before assigning contents, and the document leaves
the pipeline with its untouched original source text. -/
theorem c1_counterexample :
    render okFm textCompile 10 [("default", c1Layout)] [] ⟨"src/pages", none⟩ []
        ⟨"src/pages/index.hbs", "PAGE-SOURCE", none⟩ =
      ⟨"PAGE-SOURCE", [("body", .raw errorBodyFrag)],
        some "The partial nav could not be found"⟩ ∧
    lookupLayout [("default", c1Layout)] "default" = some c1Layout ∧
    runTmpl textCompile 10 c1Layout
        (JVal.obj [("error", JVal.str "The partial nav could not be found")])
        [("body", .raw errorBodyFrag)] =
      .error "The partial nav could not be found" ∧
    "PAGE-SOURCE" ≠ tier2Html "The partial nav could not be found" :=
  ⟨rfl, rfl, rfl, by decide⟩

/-- Claim C1 (amended): the fallback tier is selected by whether a layout
template had been resolved before the failure.  When the layout set has
no `default` entry and the document resolves to `default`, the lookup
fails before any layout is available and the output is the raw Tier-2
HTML error document.  When a layout was resolved and a later step fails
(here: the page body fails to compile), the output is that same layout
re-rendered with the `body` fragment replaced by the fixed raw error
fragment under the minimal context exposing only the error — provided
that re-render succeeds; if the re-render itself throws, the contents are
left at the document's incoming value. -/
theorem c1_amended_fallback_tiers :
    (∀ (fmp : String → Except String (List (String × JVal) × String))
        (compile : String → Except String Tmpl) (fuel : Nat)
        (layouts : List (String × Tmpl)) (g : List (String × JVal)) (opts : POptions)
        (frags0 : List (String × FragEntry)) (file : VFile)
        (attrs : List (String × JVal)) (body : String),
      fmp file.contents = .ok (attrs, body) →
      jvalToKey (resolveLayout attrs opts.pageLayouts
        (pathRelative opts.root (pathDirname file.path))) = "default" →
      lookupLayout layouts "default" = none →
      render fmp compile fuel layouts g opts frags0 file =
        ⟨tier2Html msgMissingDefault, frags0, some (wrapErr msgMissingDefault)⟩) ∧
    (∀ (fmp : String → Except String (List (String × JVal) × String))
        (compile : String → Except String Tmpl) (fuel : Nat)
        (layouts : List (String × Tmpl)) (g : List (String × JVal)) (opts : POptions)
        (frags0 : List (String × FragEntry)) (file : VFile)
        (attrs : List (String × JVal)) (body0 body1 : String) (lt : Tmpl)
        (frags2 : List (String × FragEntry)) (e : String),
      fmp file.contents = .ok (attrs, body0) →
      lookupLayout layouts (jvalToKey (resolveLayout attrs opts.pageLayouts
        (pathRelative opts.root (pathDirname file.path)))) = some lt →
      extractInline compile (purgeLayoutFrags frags0) body0 = .ok (body1, frags2) →
      compile (body1 ++ "\n") = .error e →
      ((∀ s, runTmpl compile fuel lt (JVal.obj [("error", JVal.str e)])
          (setFrag frags2 "body" (.raw errorBodyFrag)) = .ok s →
        render fmp compile fuel layouts g opts frags0 file =
          ⟨s, setFrag frags2 "body" (.raw errorBodyFrag), some (wrapErr e)⟩) ∧
       (∀ e2, runTmpl compile fuel lt (JVal.obj [("error", JVal.str e)])
          (setFrag frags2 "body" (.raw errorBodyFrag)) = .error e2 →
        render fmp compile fuel layouts g opts frags0 file =
          ⟨file.contents, setFrag frags2 "body" (.raw errorBodyFrag), some e2⟩))) := by
  constructor
  · intro fmp compile fuel layouts g opts frags0 file attrs body h0 hres hlay
    rw [render, renderCore, h0]
    simp only [hres, hlay, if_pos rfl]
    rfl
  · intro fmp compile fuel layouts g opts frags0 file attrs body0 body1 lt frags2 e
      h0 hlay hex hcp
    constructor
    · intro s hrr
      rw [render, renderCore, h0]
      simp only [hlay, hex, hcp]
      rw [finishRender, hrr]
    · intro e2 hrr
      rw [render, renderCore, h0]
      simp only [hlay, hex, hcp]
      rw [finishRender, hrr]

/-- A model compiler that fails on the page body of the Tier-1 witness
scenario and compiles everything else verbatim. -/
def c1Compile : String → Except String Tmpl :=
  fun s => if s = "TIER1-PAGE\n" then .error "boom" else .ok (.text s)

theorem c1_amended_witness :
    render okFm textCompile 9 [] [] ⟨"src/pages", none⟩ []
        ⟨"src/pages/tier2.hbs", "TIER2-PAGE", none⟩ =
      ⟨tier2Html msgMissingDefault, [], some (wrapErr msgMissingDefault)⟩ ∧
    render okFm c1Compile 9 [("default", .seq (.text "<h1>hdr</h1>") (.fragRef "body"))]
        [] ⟨"src/pages", none⟩ [] ⟨"src/pages/tier1.hbs", "TIER1-PAGE", none⟩ =
      ⟨"<h1>hdr</h1>" ++ errorBodyFrag, [("body", .raw errorBodyFrag)],
        some (wrapErr "boom")⟩ ∧
    render okFm c1Compile 9 [("default", .seq (.fragRef "gone") (.fragRef "body"))]
        [] ⟨"src/pages", none⟩ [] ⟨"src/pages/tier1b.hbs", "TIER1-PAGE", none⟩ =
      ⟨"TIER1-PAGE", [("body", .raw errorBodyFrag)],
        some "The partial gone could not be found"⟩ :=
  ⟨c1_amended_fallback_tiers.1 okFm textCompile 9 [] [] ⟨"src/pages", none⟩ []
      ⟨"src/pages/tier2.hbs", "TIER2-PAGE", none⟩ [] "TIER2-PAGE" rfl rfl rfl,
   (c1_amended_fallback_tiers.2 okFm c1Compile 9
      [("default", .seq (.text "<h1>hdr</h1>") (.fragRef "body"))] []
      ⟨"src/pages", none⟩ [] ⟨"src/pages/tier1.hbs", "TIER1-PAGE", none⟩ []
      "TIER1-PAGE" "TIER1-PAGE" _ [] "boom" rfl rfl rfl rfl).1
      ("<h1>hdr</h1>" ++ errorBodyFrag) rfl,
   (c1_amended_fallback_tiers.2 okFm c1Compile 9
      [("default", .seq (.fragRef "gone") (.fragRef "body"))] []
      ⟨"src/pages", none⟩ [] ⟨"src/pages/tier1b.hbs", "TIER1-PAGE", none⟩ []
      "TIER1-PAGE" "TIER1-PAGE" _ [] "boom" rfl rfl rfl rfl).2
      "The partial gone could not be found" rfl⟩

/-- The C6 scenario: a layout whose evaluation throws (missing fragment
`sidebar`) both in the primary render and in the Tier-1 re-render. -/
def c6Scenario : RenderOut :=
  render okFm textCompile 10 [("default", .seq (.text "S") (.fragRef "sidebar"))]
    [] ⟨"src/pages", none⟩ [] ⟨"src/pages/contact.hbs", "RAW-CONTACT", none⟩

/-- Claim C6 is false as stated: on this failing document the output is
the document's untouched original text (no rendered error content was
assigned), and the error reaching the caller is the Tier-1 re-render's
own error, not wrapped with the `Panini: rendering error occured.`
message carrying the original error. -/
theorem c6_counterexample :
    c6Scenario.contents = "RAW-CONTACT" ∧
    c6Scenario.raised = some "The partial sidebar could not be found" ∧
    strStartsWith "The partial sidebar could not be found"
      "Panini: rendering error occured." = false ∧
    strContains "RAW-CONTACT" "Panini" = false :=
  ⟨rfl, rfl, rfl, rfl⟩

/-- Claim C6 (amended): every failure in the try block is caught and the
document is handed downstream exactly once (`render` is a total function
into one output record); a Tier-2 failure and a Tier-1 failure whose
fallback re-render succeeds assign rendered error content and re-raise
`Panini: rendering error occured.\n` plus the original error's message;
but when the Tier-1 fallback re-render itself throws, the contents keep
the document's incoming value and the fallback's own error propagates
unwrapped.  On success nothing is raised. -/
theorem c6_amended_propagation
    (fmp : String → Except String (List (String × JVal) × String))
    (compile : String → Except String Tmpl) (fuel : Nat)
    (layouts : List (String × Tmpl)) (g : List (String × JVal)) (opts : POptions)
    (frags0 : List (String × FragEntry)) (file : VFile) :
    (∀ out frags, renderCore fmp compile fuel layouts g opts frags0 file = .ok out frags →
      render fmp compile fuel layouts g opts frags0 file = ⟨out, frags, none⟩) ∧
    (∀ e frags, renderCore fmp compile fuel layouts g opts frags0 file = .fail e frags none →
      render fmp compile fuel layouts g opts frags0 file =
        ⟨tier2Html e, frags, some (wrapErr e)⟩) ∧
    (∀ e frags lt s,
      renderCore fmp compile fuel layouts g opts frags0 file = .fail e frags (some lt) →
      runTmpl compile fuel lt (JVal.obj [("error", JVal.str e)])
        (setFrag frags "body" (.raw errorBodyFrag)) = .ok s →
      render fmp compile fuel layouts g opts frags0 file =
        ⟨s, setFrag frags "body" (.raw errorBodyFrag), some (wrapErr e)⟩) ∧
    (∀ e frags lt e2,
      renderCore fmp compile fuel layouts g opts frags0 file = .fail e frags (some lt) →
      runTmpl compile fuel lt (JVal.obj [("error", JVal.str e)])
        (setFrag frags "body" (.raw errorBodyFrag)) = .error e2 →
      render fmp compile fuel layouts g opts frags0 file =
        ⟨file.contents, setFrag frags "body" (.raw errorBodyFrag), some e2⟩) := by
  refine ⟨?_, ?_, ?_, ?_⟩
  · intro out frags h
    rw [render, h]
    rfl
  · intro e frags h
    rw [render, h]
    rfl
  · intro e frags lt s h hrr
    rw [render, h, finishRender, hrr]
  · intro e frags lt e2 h hrr
    rw [render, h, finishRender, hrr]

theorem c6_amended_witness :
    render okFm textCompile 10 [("default", .seq (.text "L[")
        (.seq (.fragRef "body") (.text "]")))] [] ⟨"src/pages", none⟩ []
        ⟨"src/pages/ok.hbs", "OK-PAGE", none⟩ =
      ⟨"L[OK-PAGE\n]", [("body", .tmpl (.text "OK-PAGE\n"))], none⟩ ∧
    c6Scenario =
      ⟨"RAW-CONTACT", [("body", .raw errorBodyFrag)],
        some "The partial sidebar could not be found"⟩ :=
  ⟨(c6_amended_propagation okFm textCompile 10
      [("default", .seq (.text "L[") (.seq (.fragRef "body") (.text "]")))] []
      ⟨"src/pages", none⟩ [] ⟨"src/pages/ok.hbs", "OK-PAGE", none⟩).1
      "L[OK-PAGE\n]" [("body", .tmpl (.text "OK-PAGE\n"))] rfl,
   (c6_amended_propagation okFm textCompile 10
      [("default", .seq (.text "S") (.fragRef "sidebar"))] []
      ⟨"src/pages", none⟩ [] ⟨"src/pages/contact.hbs", "RAW-CONTACT", none⟩).2.2.2
      "The partial sidebar could not be found" [("body", .tmpl (.text "RAW-CONTACT\n"))]
      (.seq (.text "S") (.fragRef "sidebar"))
      "The partial sidebar could not be found" rfl rfl⟩

end Panini
